import Mathlib

/-!
Verification development for the pybase repository: a cookiecutter project
template together with an integration-test harness (tests/__init__.py).

The harness manipulates a setup.py module through its abstract syntax tree.
We embed the fragment of the Python AST the harness inspects: keyword
arguments of the setup() call, whose values are string/bool constants,
lists, dicts, or nodes the harness never looks into.  The harness functions
add_dependency, update_dependency, get_meta and get_dependencies are
translated as functions over that embedding; Python attribute errors
(accessing .elts, .value, .keys on a node of the wrong shape) are modelled
by Option.  Subprocess and filesystem effects are modelled by explicit
state passing and effect traces.
-/

namespace PyBase

/-- A Python constant value as it occurs in the setup.py files: a string
(dependency specifiers, metadata) or a bool (zip_safe=False). -/
inductive PyVal where
  | str (s : String)
  | bool (b : Bool)
deriving DecidableEq, Repr

/-- The fragment of the Python expression grammar inspected by the harness:
ast.Constant, ast.List, ast.Dict, and any other node (calls such as
find_packages(...), which none of the visitors enter). -/
inductive Expr where
  | const (v : PyVal)
  | list (elts : List Expr)
  | dict (keys : List Expr) (values : List Expr)
  | other

/-- Accessing node.value: succeeds only on ast.Constant, otherwise Python
raises AttributeError. -/
def Expr.value? : Expr → Option PyVal
  | .const v => some v
  | _ => none

/-- Accessing node.elts: succeeds only on ast.List. -/
def Expr.elts? : Expr → Option (List Expr)
  | .list es => some es
  | _ => none

/-- Accessing node.keys and node.values: succeeds only on ast.Dict. -/
def Expr.dictParts? : Expr → Option (List Expr × List Expr)
  | .dict ks vs => some (ks, vs)
  | _ => none

/-- An ast.keyword node: a keyword argument of the setup() call.  A setup.py
module is modelled as the list of keyword nodes its visitors encounter, in
syntactic order. -/
structure Keyword where
  arg : String
  value : Expr

/-- Python dict assignment d[k] = v: overwrite in place when the key is
present, append at the end otherwise (insertion order is preserved). -/
def dictSet {κ α : Type} [DecidableEq κ] : List (κ × α) → κ → α → List (κ × α)
  | [], k, v => [(k, v)]
  | (k0, v0) :: rest, k, v =>
      if k0 = k then (k0, v) :: rest else (k0, v0) :: dictSet rest k v

/-- Python dict lookup d[k], as an Option. -/
def dictGet {κ α : Type} [DecidableEq κ] : List (κ × α) → κ → Option α
  | [], _ => none
  | (k0, v0) :: rest, k => if k0 = k then some v0 else dictGet rest k

/-- A left-to-right traversal that may raise: apply f to each element in
order, stopping at the first failure (a Python loop or comprehension whose
body may raise an exception). -/
def optionMapList {α β : Type} (f : α → Option β) : List α → Option (List β)
  | [] => some []
  | a :: rest => do
      let b ← f a
      let bs ← optionMapList f rest
      pure (b :: bs)

/-- add_dependency's DependencyAdder.visit_keyword: on the install_requires
keyword build a new list with the dependency appended as a string constant;
leave every other keyword untouched.  Reading node.value.elts on a non-list
value is an AttributeError (none). -/
def adderVisitKeyword (dependency : String) (kw : Keyword) : Option Keyword :=
  if kw.arg = "install_requires" then do
    let elts ← kw.value.elts?
    pure { arg := kw.arg,
           value := Expr.list (elts ++ [Expr.const (PyVal.str dependency)]) }
  else
    pure kw

/-- add_dependency: rewrite every keyword node of the module with
DependencyAdder. -/
def add_dependency (dependency : String) (kws : List Keyword) :
    Option (List Keyword) :=
  optionMapList (adderVisitKeyword dependency) kws

/-- One element step of update_dependency: elt.value == old replaces the
element with a constant holding the new specifier, anything else is kept.
Reading elt.value on a non-constant is an AttributeError (none). -/
def updaterVisitElt (old new : String) (e : Expr) : Option Expr := do
  let v ← e.value?
  if v = PyVal.str old then pure (Expr.const (PyVal.str new)) else pure e

/-- update_dependency's DependencyUpdater.visit_keyword. -/
def updaterVisitKeyword (old new : String) (kw : Keyword) : Option Keyword :=
  if kw.arg = "install_requires" then do
    let elts ← kw.value.elts?
    let newDeps ← optionMapList (updaterVisitElt old new) elts
    pure { arg := kw.arg, value := Expr.list newDeps }
  else
    pure kw

/-- update_dependency: rewrite every keyword node of the module with
DependencyUpdater. -/
def update_dependency (old new : String) (kws : List Keyword) :
    Option (List Keyword) :=
  optionMapList (updaterVisitKeyword old new) kws

/-- The keyword names get_meta's MetaVisitor collects. -/
def metaNames : List String := ["name", "version", "author", "author_email"]

/-- get_meta's MetaVisitor.visit_keyword: meta[node.arg] = node.value.value
for the four collected names. -/
def metaVisitKeyword (meta : List (String × PyVal)) (kw : Keyword) :
    Option (List (String × PyVal)) :=
  if kw.arg ∈ metaNames then do
    let v ← kw.value.value?
    pure (dictSet meta kw.arg v)
  else
    pure meta

/-- get_meta: fold MetaVisitor over the module's keyword nodes, starting
from the empty dict. -/
def get_meta (kws : List Keyword) : Option (List (String × PyVal)) :=
  kws.foldlM metaVisitKeyword []

/-- The dictionary get_dependencies returns: the install list and the
extras dict (keyed by the extras_require dict keys). -/
structure Deps where
  install : List PyVal
  extras : List (PyVal × List PyVal)
deriving DecidableEq, Repr

/-- One key/value pair of the extras_require dict:
dependencies["extras"][key.value] = [dep.value for dep in value.elts]. -/
def extrasVisitPair (extras : List (PyVal × List PyVal)) (kv : Expr × Expr) :
    Option (List (PyVal × List PyVal)) := do
  let name ← kv.1.value?
  let elts ← kv.2.elts?
  let deps ← optionMapList Expr.value? elts
  pure (dictSet extras name deps)

/-- get_dependencies' DependenciesVisitor.visit_keyword: the two sequential
if statements of the source, on install_requires and extras_require. -/
def depsVisitKeyword (st : Deps) (kw : Keyword) : Option Deps := do
  let st1 ←
    if kw.arg = "install_requires" then do
      let elts ← kw.value.elts?
      let vals ← optionMapList Expr.value? elts
      pure { st with install := vals }
    else
      pure st
  if kw.arg = "extras_require" then do
    let parts ← kw.value.dictParts?
    let extras ← (parts.1.zip parts.2).foldlM extrasVisitPair st1.extras
    pure { st1 with extras := extras }
  else
    pure st1

/-- get_dependencies: fold DependenciesVisitor over the module's keyword
nodes, starting from install = [] and extras = the empty dict. -/
def get_dependencies (kws : List Keyword) : Option Deps :=
  kws.foldlM depsVisitKeyword { install := [], extras := [] }

/-! ## The template setup.py files

The repository ships two template variants of setup.py: one under the
directory named by the private slug variable (double underscore), the one
the test suite exercises, and one under the plain slug directory.  Each
conditional block is gated by a jinja test of the form flag == "y"; we
model the outcome of that test as a Bool (an unset flag renders the block
away, like any value other than "y"). -/

/-- install_requires entries common to both variants and all flags. -/
def baseInstall : List String :=
  ["attrs>=20.2", "zope.interface>=5.0", "mypy-zope>=0.3.3"]

/-- install_requires entries added by use_trio == "y" (both variants). -/
def trioInstall : List String := ["trio>=0.19", "trio-typing>=0.7"]

/-- install_requires entries added by use_db == "y" in the double-underscore
slug variant. -/
def dbInstallPriv : List String :=
  ["alembic>=1.7", "psycopg2-binary", "sqlalchemy[mypy]>=2.0"]

/-- install_requires entries added by use_db == "y" in the plain slug
variant. -/
def dbInstallPub : List String :=
  ["alembic>=1.7", "psycopg2-binary", "SQLAlchemy>=1.4", "sqlalchemy2-stubs"]

/-- The rendered install_requires list of the double-underscore slug
variant. -/
def installRequiresPriv (use_trio use_db : Bool) : List String :=
  baseInstall ++ (if use_trio then trioInstall else [])
    ++ (if use_db then dbInstallPriv else [])

/-- The rendered install_requires list of the plain slug variant. -/
def installRequiresPub (use_trio use_db : Bool) : List String :=
  baseInstall ++ (if use_trio then trioInstall else [])
    ++ (if use_db then dbInstallPub else [])

/-- The rendered dev extra of the double-underscore slug variant. -/
def devExtraPriv (use_trio : Bool) : List String :=
  ["bandit", "bumpver>=2021.1109", "black>=22.1", "coverage[toml]>=5.0",
   "flake8", "flake8-bugbear", "hypothesis>=6.0", "isort>=5.0",
   "mypy>=0.920", "pdbpp", "pip-audit", "pylint", "pytest>=6.0",
   "pytest-cov>=3.0", "tox"]
    ++ (if use_trio then ["pytest-trio>=0.7"] else [])

/-- The rendered dev extra of the plain slug variant. -/
def devExtraPub (use_trio : Bool) : List String :=
  ["bandit", "black>=22.1", "coverage[toml]", "flake8", "flake8-bugbear",
   "hypothesis", "isort>=5.0", "mypy>=0.920", "pip-audit", "pylint",
   "pytest>=6.0", "pytest-cov", "tox"]
    ++ (if use_trio then ["pytest-trio>=0.7"] else [])

/-- The rendered extras_require dict of the double-underscore slug variant:
a single dev key. -/
def extrasRequirePriv (use_trio : Bool) : List (String × List String) :=
  [("dev", devExtraPriv use_trio)]

/-- The rendered extras_require dict of the plain slug variant. -/
def extrasRequirePub (use_trio : Bool) : List (String × List String) :=
  [("dev", devExtraPub use_trio)]

/-- The keyword arguments of the rendered setup() call of the
double-underscore slug variant, in source order, as AST nodes.  The slug,
version, full name and email come from the cookiecutter context. -/
def setupModulePriv (slug version fullName email : String)
    (use_trio use_db : Bool) : List Keyword :=
  [ ⟨"name", .const (.str slug)⟩,
    ⟨"version", .const (.str version)⟩,
    ⟨"author", .const (.str fullName)⟩,
    ⟨"author_email", .const (.str email)⟩,
    ⟨"package_dir", .dict [.const (.str "")] [.const (.str "src")]⟩,
    ⟨"packages", .other⟩,
    ⟨"install_requires",
      .list ((installRequiresPriv use_trio use_db).map
        (fun s => .const (.str s)))⟩,
    ⟨"extras_require",
      .dict [.const (.str "dev")]
        [.list ((devExtraPriv use_trio).map (fun s => .const (.str s)))]⟩,
    ⟨"python_requires", .const (.str ">=3.9")⟩,
    ⟨"zip_safe", .const (.bool false)⟩ ]

/-! ## run_cmd: subprocess orchestration

run_cmd joins the command with shlex.join, deep-copies os.environ, when a
virtual environment is given prepends its bin directory to the PATH of the
copy, and calls subprocess.run in check and capture mode.  The operating
system is modelled by an oracle giving, for a command line and an
environment, the exit code and the captured output of the process; path
resolution (Path.resolve) is an abstract function. -/

/-- A single quote character (shlex quoting). -/
def squoteChar : Char := Char.ofNat 39

/-- The characters shlex considers safe, the complement of the pattern
of shlex._find_unsafe under re.ASCII: ASCII word characters and
@ % + = : , . / - . -/
def shlexSafeChar (c : Char) : Bool :=
  (97 ≤ c.toNat && c.toNat ≤ 122) || (65 ≤ c.toNat && c.toNat ≤ 90) ||
  (48 ≤ c.toNat && c.toNat ≤ 57) || c = '_' || c = '@' || c = '%' ||
  c = '+' || c = '=' || c = ':' || c = ',' || c = '.' || c = '/' || c = '-'

/-- shlex.quote: the empty string becomes a pair of single quotes, a string
of safe characters is returned unchanged, anything else is wrapped in
single quotes with each embedded single quote escaped. -/
def shlexQuote (s : String) : String :=
  if s = "" then String.singleton squoteChar ++ String.singleton squoteChar
  else if s.toList.all shlexSafeChar then s
  else
    String.singleton squoteChar
      ++ String.join (s.toList.map (fun c =>
           if c = squoteChar then
             String.singleton squoteChar ++ "\"" ++ String.singleton squoteChar
               ++ "\"" ++ String.singleton squoteChar
           else String.singleton c))
      ++ String.singleton squoteChar

/-- shlex.join: quote each word and join with single spaces. -/
def shlexJoin (words : List String) : String :=
  String.intercalate " " (words.map shlexQuote)

/-- The pathlib / operator. -/
def pathJoin (a b : String) : String := a ++ "/" ++ b

/-- Python str.split with a one-character separator: split at every
occurrence, keeping empty parts. -/
def pySplit (sep : Char) (s : String) : List String :=
  (s.toList.foldr
    (fun ch acc =>
      match acc with
      | [] => [[ch]]
      | cur :: rest =>
          if ch = sep then [] :: cur :: rest else (ch :: cur) :: rest)
    [[]]).map (fun l => ⟨l⟩)

/-- A process environment (os.environ, or the env mapping handed to a
subprocess). -/
abbrev Env := List (String × String)

/-- What the operating system reports for a finished process. -/
structure ProcResult where
  returncode : Int
  stdout : String
  stderr : String
deriving DecidableEq, Repr

/-- subprocess.CompletedProcess, as returned by subprocess.run. -/
structure CompletedProcess where
  args : String
  returncode : Int
  stdout : String
  stderr : String
deriving DecidableEq, Repr

/-- subprocess.CalledProcessError: the command, the exit code, and the
captured output and stderr. -/
structure CalledProcessError where
  cmd : String
  returncode : Int
  output : String
  stderr : String
deriving DecidableEq, Repr

/-- subprocess.run with check=True and capture_output=True: run the command
in the given environment; return the CompletedProcess on exit code zero and
raise CalledProcessError otherwise. -/
def subprocessRunCheck (runProc : String → Env → ProcResult)
    (command : String) (env : Env) :
    Except CalledProcessError CompletedProcess :=
  let r := runProc command env
  if r.returncode = 0 then
    .ok { args := command, returncode := r.returncode,
          stdout := r.stdout, stderr := r.stderr }
  else
    .error { cmd := command, returncode := r.returncode,
             output := r.stdout, stderr := r.stderr }

/-- Everything observable about one run_cmd call: the state of os.environ
after the call, the environment handed to the subprocess, and the returned
value or raised error. -/
structure RunCmdOutcome where
  environAfter : Env
  childEnv : Env
  result : Except CalledProcessError CompletedProcess

/-- run_cmd.  The environment passed to the subprocess is a deep copy of
os.environ: PATH manipulation happens on the copy, os.environ itself is
never assigned to.  When a virtual environment is given and the copy has no
PATH entry, the subscript raises KeyError (none). -/
def runCmd (runProc : String → Env → ProcResult) (resolve : String → String)
    (environ : Env) (cmd : String) (args : List String)
    (venv : Option String) : Option RunCmdOutcome :=
  let command := shlexJoin (cmd :: args)
  let environment := environ
  match venv with
  | none =>
      some { environAfter := environ, childEnv := environment,
             result := subprocessRunCheck runProc command environment }
  | some v =>
      let venv_bin := pathJoin (resolve v) "bin"
      match dictGet environment "PATH" with
      | none => none
      | some path =>
          let environment2 := dictSet environment "PATH"
            (String.intercalate ":" (venv_bin :: pySplit ':' path))
          some { environAfter := environ, childEnv := environment2,
                 result := subprocessRunCheck runProc command environment2 }

/-! ## get_current_version -/

/-- Python str.strip with no argument removes the six ASCII whitespace
characters from both ends. -/
def pyWhitespace (c : Char) : Bool :=
  c = ' ' || c = '\t' || c = '\n' || c = '\r' ||
  c = Char.ofNat 11 || c = Char.ofNat 12

/-- Python str.strip(). -/
def pyStrip (s : String) : String :=
  ⟨((s.toList.dropWhile pyWhitespace).reverse.dropWhile pyWhitespace).reverse⟩

/-- get_current_version.  The first argument is the __version__ constant
bound by executing src/test_package/__init__.py, the second the raw content
of the VERSION file.  The source asserts both agree after stripping the
file content, raising AssertionError (modelled by Except.error) otherwise,
and returns the Python-side value. -/
def get_current_version (py_version : String) (version_file : String) :
    Except Unit String :=
  let plaintext_version := pyStrip version_file
  if py_version = plaintext_version then .ok py_version else .error ()

/-! ## run_from, delete_package and create_package

The working-directory protocol of run_from is modelled by explicit state
passing: a process state carries the current working directory and an
abstract remainder.  os.getcwd() returns a canonical path, so resolving the
saved working directory is the identity in practice; the theorems take that
as a hypothesis.  create_package is straight-line effectful glue; it is
modelled by the trace of effects it performs, in order. -/

/-- Process state: the current working directory plus everything else the
body of a context manager may touch. -/
structure ProcState (σ : Type) where
  cwd : String
  rest : σ

/-- run_from as a state transformer: save the resolved current directory,
chdir to the resolved target, run the body, and chdir back.  A body that
raises (none) propagates, skipping the restore, exactly as in the source,
which has no try/finally around the yield. -/
def run_from {σ : Type} (resolve : String → String) (path : String)
    (body : ProcState σ → Option (ProcState σ)) (s : ProcState σ) :
    Option (ProcState σ) :=
  let original_path := resolve s.cwd
  let target_path := resolve path
  match body { s with cwd := target_path } with
  | some s2 => some { s2 with cwd := original_path }
  | none => none

/-- One observable effect performed by the harness glue code. -/
inductive Effect where
  | rmtree (path : String) (ignore_errors : Bool)
  | cookiecutterRender (output_dir : String)
      (context : List (String × String)) (no_input : Bool)
  | venvCreate (path : String) (clear with_pip upgrade_deps : Bool)
  | chdir (path : String)
  | runCommand (cmd : String) (args : List String) (venv : Option String)
deriving DecidableEq, Repr

/-- The directory names create_package uses below the target. -/
def PACKAGE_DIR : String := "test_package"

/-- The virtual-environment directory name. -/
def VENV_DIR : String := "package_venv"

/-- The Package dataclass: where the package and its virtual environment
live. -/
structure Package where
  package : String
  venv : String
deriving DecidableEq, Repr

/-- delete_package: remove the package tree and the venv tree, ignoring
errors, in that order. -/
def delete_package_events (pkg : Package) : List Effect :=
  [.rmtree pkg.package true, .rmtree pkg.venv true]

/-- The effect trace of a run_from block: chdir to the resolved target,
the body, chdir back to the resolved original working directory. -/
def run_from_events (resolve : String → String) (cwd path : String)
    (body : List Effect) : List Effect :=
  [Effect.chdir (resolve path)] ++ body ++ [Effect.chdir (resolve cwd)]

/-- create_package: resolve the target, build the Package record, delete
any previous package, render the template with cookiecutter (no_input, the
provided context, output_dir = the unresolved target), build a fresh
virtual environment (clear, with pip, upgraded deps), and run the
bootstrap script from inside the package directory.  Returns the trace of
effects and the Package. -/
def create_package (resolve : String → String) (cwd target : String)
    (context : List (String × String)) : List Effect × Package :=
  let target_loc := resolve target
  let pkg : Package :=
    { package := pathJoin target_loc PACKAGE_DIR,
      venv := pathJoin target_loc VENV_DIR }
  let events :=
    delete_package_events pkg
      ++ [Effect.cookiecutterRender target context true]
      ++ [Effect.venvCreate pkg.venv true true true]
      ++ run_from_events resolve cwd pkg.package
           [Effect.runCommand "./scripts/bootstrap.sh" [] (some pkg.venv)]
  (events, pkg)

/-! ## Helper lemmas -/

/-- Lookup after assignment at the assigned key. -/
theorem dictGet_dictSet_self {κ α : Type} [DecidableEq κ]
    (m : List (κ × α)) (k : κ) (v : α) :
    dictGet (dictSet m k v) k = some v := by
  induction m with
  | nil => simp [dictSet, dictGet]
  | cons p rest ih =>
      by_cases h : p.1 = k <;> simp [dictSet, dictGet, h, ih]

/-- Lookup after assignment at a different key. -/
theorem dictGet_dictSet_ne {κ α : Type} [DecidableEq κ]
    (m : List (κ × α)) (k k2 : κ) (v : α) (h : k2 ≠ k) :
    dictGet (dictSet m k v) k2 = dictGet m k2 := by
  induction m with
  | nil => simp [dictSet, dictGet, Ne.symm h]
  | cons p rest ih =>
      by_cases hp : p.1 = k <;> by_cases hp2 : p.1 = k2 <;>
        simp_all [dictSet, dictGet]

/-- Characterization of the MetaVisitor fold: it succeeds when every
keyword named in metaNames carries a constant value; keys outside metaNames
and keys never named are untouched, and a uniquely named keyword with a
constant value ends up in the dict with that value. -/
theorem metaFold_char (kws : List Keyword) :
    ∀ st : List (String × PyVal),
      (∀ kw ∈ kws, kw.arg ∈ metaNames → ∃ val, kw.value = Expr.const val) →
      ∃ m, List.foldlM metaVisitKeyword st kws = some m ∧
        (∀ k, k ∉ metaNames → dictGet m k = dictGet st k) ∧
        (∀ k, (∀ kw ∈ kws, kw.arg ≠ k) → dictGet m k = dictGet st k) ∧
        (∀ k val, k ∈ metaNames → (⟨k, Expr.const val⟩ : Keyword) ∈ kws →
          (∀ kw ∈ kws, kw.arg = k → kw = ⟨k, Expr.const val⟩) →
          dictGet m k = some val) := by
  induction kws with
  | nil =>
      intro st _
      exact ⟨st, rfl, fun _ _ => rfl, fun _ _ => rfl, by simp⟩
  | cons kw rest ih =>
      intro st h1
      by_cases hkw : kw.arg ∈ metaNames
      · obtain ⟨val0, hv⟩ := h1 kw (List.mem_cons_self kw rest) hkw
        have hstep : metaVisitKeyword st kw = some (dictSet st kw.arg val0) := by
          simp [metaVisitKeyword, hkw, hv, Expr.value?]
        obtain ⟨m, hm, hnot, hframe, hmem⟩ :=
          ih (dictSet st kw.arg val0)
            (fun kw2 hk2 ha => h1 kw2 (List.mem_cons_of_mem kw hk2) ha)
        refine ⟨m, by simp [hstep, hm], ?_, ?_, ?_⟩
        · intro k hk
          have hne : k ≠ kw.arg := fun he => hk (he ▸ hkw)
          rw [hnot k hk, dictGet_dictSet_ne _ _ _ _ hne]
        · intro k hk
          have hne : k ≠ kw.arg :=
            fun he => hk kw (List.mem_cons_self kw rest) he.symm
          rw [hframe k (fun kw2 hk2 => hk kw2 (List.mem_cons_of_mem kw hk2)),
            dictGet_dictSet_ne _ _ _ _ hne]
        · intro k val hk4 hmem2 huniq
          by_cases hka : kw.arg = k
          · have hkwe : kw = ⟨k, Expr.const val⟩ :=
              huniq kw (List.mem_cons_self kw rest) hka
            have hval : val0 = val := by
              have h2 := hkwe ▸ hv
              exact (Expr.const.inj h2).symm
            by_cases hex : ∀ kw2 ∈ rest, kw2.arg ≠ k
            · rw [hframe k hex, ← hka, dictGet_dictSet_self]
              exact congrArg some hval
            · push_neg at hex
              obtain ⟨kw2, hk2, hka2⟩ := hex
              have : kw2 = ⟨k, Expr.const val⟩ :=
                huniq kw2 (List.mem_cons_of_mem kw hk2) hka2
              exact hmem k val hk4 (this ▸ hk2)
                (fun kw3 hk3 ha3 =>
                  huniq kw3 (List.mem_cons_of_mem kw hk3) ha3)
          · have : (⟨k, Expr.const val⟩ : Keyword) ∈ rest := by
              rcases List.mem_cons.mp hmem2 with he | hr
              · exact absurd (congrArg Keyword.arg he.symm) hka
              · exact hr
            exact hmem k val hk4 this
              (fun kw3 hk3 ha3 => huniq kw3 (List.mem_cons_of_mem kw hk3) ha3)
      · have hstep : metaVisitKeyword st kw = some st := by
          simp [metaVisitKeyword, hkw]
        obtain ⟨m, hm, hnot, hframe, hmem⟩ :=
          ih st (fun kw2 hk2 ha => h1 kw2 (List.mem_cons_of_mem kw hk2) ha)
        refine ⟨m, by simp [hstep, hm], hnot, ?_, ?_⟩
        · intro k hk
          exact hframe k (fun kw2 hk2 => hk kw2 (List.mem_cons_of_mem kw hk2))
        · intro k val hk4 hmem2 huniq
          have : (⟨k, Expr.const val⟩ : Keyword) ∈ rest := by
            rcases List.mem_cons.mp hmem2 with he | hr
            · exact absurd (he ▸ hk4) hkw
            · exact hr
          exact hmem k val hk4 this
            (fun kw3 hk3 ha3 => huniq kw3 (List.mem_cons_of_mem kw hk3) ha3)

/-- The traversal distributes over list append. -/
theorem optionMapList_append {α β : Type} (f : α → Option β) (l1 l2 : List α) :
    optionMapList f (l1 ++ l2)
      = (optionMapList f l1).bind (fun as =>
          (optionMapList f l2).map (fun bs => as ++ bs)) := by
  induction l1 with
  | nil => cases h : optionMapList f l2 <;> simp [optionMapList, h]
  | cons a rest ih =>
      cases hf : f a with
      | none => simp [optionMapList, hf]
      | some b =>
          simp [optionMapList, hf, ih]
          cases h1 : optionMapList f rest <;>
            cases h2 : optionMapList f l2 <;> simp [h1, h2]

/-- A traversal whose step keeps every element satisfying p is the
identity on lists of such elements. -/
theorem optionMapList_keep {α : Type} (f : α → Option α)
    (p : α → Prop)
    (hf : ∀ x, p x → f x = some x) :
    ∀ l : List α, (∀ x ∈ l, p x) → optionMapList f l = some l := by
  intro l hl
  induction l with
  | nil => rfl
  | cons a rest ih =>
      simp [optionMapList, hf a (hl a (List.mem_cons_self a rest)),
        ih (fun x hx => hl x (List.mem_cons_of_mem a hx))]

/-- Reading node.value over a list of string constants yields the
strings. -/
theorem optionMapList_value_of_str (vals : List String) :
    optionMapList Expr.value? (vals.map (fun s => Expr.const (PyVal.str s)))
      = some (vals.map PyVal.str) := by
  induction vals with
  | nil => rfl
  | cons s rest ih => simp [optionMapList, Expr.value?, ih]

/-- The DependencyUpdater element step over a list of string constants
replaces exactly the occurrences of the old specifier. -/
theorem optionMapList_updaterVisitElt (old new : String) (vals : List String) :
    optionMapList (updaterVisitElt old new)
        (vals.map (fun s => Expr.const (PyVal.str s)))
      = some ((vals.map (fun s => if s = old then new else s)).map
          (fun s => Expr.const (PyVal.str s))) := by
  induction vals with
  | nil => rfl
  | cons s rest ih =>
      by_cases h : s = old <;>
        simp [optionMapList, updaterVisitElt, Expr.value?, h, ih]

/-- The DependenciesVisitor step on the install_requires keyword replaces
the install component with the element values, leaving extras alone. -/
theorem depsVisit_install (elts : List Expr) (i : List PyVal)
    (e : List (PyVal × List PyVal)) :
    depsVisitKeyword ⟨i, e⟩ ⟨"install_requires", Expr.list elts⟩
      = (optionMapList Expr.value? elts).map (fun vals => ⟨vals, e⟩) := by
  cases hm : optionMapList Expr.value? elts <;>
    simp [depsVisitKeyword, Expr.elts?, hm]

/-- The DependenciesVisitor step on any other keyword leaves the install
component unchanged, and its effect on extras does not depend on it. -/
theorem depsVisit_nonInstall (kw : Keyword)
    (harg : kw.arg ≠ "install_requires") (i : List PyVal)
    (e : List (PyVal × List PyVal)) :
    depsVisitKeyword ⟨i, e⟩ kw
      = (if kw.arg = "extras_require" then
           (kw.value.dictParts?).bind (fun parts =>
             (parts.1.zip parts.2).foldlM extrasVisitPair e)
         else some e).map (fun ex => ⟨i, ex⟩) := by
  by_cases h2 : kw.arg = "extras_require"
  · cases hdp : kw.value.dictParts? with
    | none => simp [depsVisitKeyword, harg, h2, hdp]
    | some parts =>
        cases hex : (parts.1.zip parts.2).foldlM extrasVisitPair e with
        | none => simp [depsVisitKeyword, harg, h2, hdp, hex]
        | some ex => simp [depsVisitKeyword, harg, h2, hdp, hex]
  · simp [depsVisitKeyword, harg, h2]

/-- Folding the DependenciesVisitor over keywords that are not
install_requires preserves the install component and computes extras
independently of it. -/
theorem depsFold_install_frame :
    ∀ l : List Keyword, (∀ kw ∈ l, kw.arg ≠ "install_requires") →
    ∀ (i i2 : List PyVal) (e : List (PyVal × List PyVal)),
      List.foldlM depsVisitKeyword (⟨i, e⟩ : Deps) l
        = (List.foldlM depsVisitKeyword (⟨i2, e⟩ : Deps) l).map
            (fun dd => ⟨i, dd.extras⟩) := by
  intro l
  induction l with
  | nil => intro _ i i2 e; rfl
  | cons kw rest ih =>
      intro hl i i2 e
      have harg : kw.arg ≠ "install_requires" :=
        hl kw (List.mem_cons_self kw rest)
      have hrest : ∀ kw2 ∈ rest, kw2.arg ≠ "install_requires" :=
        fun kw2 h2 => hl kw2 (List.mem_cons_of_mem kw h2)
      rw [List.foldlM_cons, List.foldlM_cons,
        depsVisit_nonInstall kw harg i e, depsVisit_nonInstall kw harg i2 e]
      cases hE : (if kw.arg = "extras_require" then
          (kw.value.dictParts?).bind (fun parts =>
            (parts.1.zip parts.2).foldlM extrasVisitPair e)
        else some e) with
      | none => simp
      | some ex => simpa using ih hrest i i2 ex

end PyBase

namespace PyBase

/-! ## Claim theorems -/

/-- Claim C3: with use_db enabled and use_trio unset (its gate false), the
generated package's install dependencies are exactly attrs, zope.interface,
mypy-zope, alembic, psycopg2-binary and sqlalchemy, with the stated version
bounds and in that order; with neither flag they are exactly the first
three.  Stated through get_dependencies applied to the rendered setup()
call, for every cookiecutter context. -/
theorem generated_install_dependencies (slug ver fn em : String) :
    (get_dependencies (setupModulePriv slug ver fn em false true)).map
        Deps.install
      = some (List.map PyVal.str
          ["attrs>=20.2", "zope.interface>=5.0", "mypy-zope>=0.3.3",
           "alembic>=1.7", "psycopg2-binary", "sqlalchemy[mypy]>=2.0"]) ∧
    (get_dependencies (setupModulePriv slug ver fn em false false)).map
        Deps.install
      = some (List.map PyVal.str
          ["attrs>=20.2", "zope.interface>=5.0", "mypy-zope>=0.3.3"]) :=
  ⟨rfl, rfl⟩

/-- Claim C8, counterexample: with use_trio unset and use_db set, the two
template variants of setup.py declare neither the same install_requires
list nor the same extras_require dictionary, so the claim fails as
stated. -/
theorem template_variants_disagree :
    ¬ (installRequiresPub false true = installRequiresPriv false true ∧
       extrasRequirePub false = extrasRequirePriv false) := by decide

/-- Claim C8, amended: for every assignment of the flags the two template
variants declare the same install_requires list exactly when use_db is
disabled (their DB blocks differ), and their extras_require dictionaries
always differ (the dev extras disagree on members and version bounds). -/
theorem template_variants_agreement :
    ∀ use_trio use_db : Bool,
      (installRequiresPub use_trio use_db
          = installRequiresPriv use_trio use_db ↔ use_db = false) ∧
      extrasRequirePub use_trio ≠ extrasRequirePriv use_trio := by decide

/-- Claim C5: get_current_version returns the Python-side version exactly
when it equals the VERSION file content with surrounding whitespace
stripped, and raises AssertionError exactly when the two differ. -/
theorem get_current_version_spec (v f : String) :
    (∀ x, get_current_version v f = Except.ok x ↔ (v = pyStrip f ∧ x = v)) ∧
    (get_current_version v f = Except.error () ↔ v ≠ pyStrip f) := by
  by_cases h : v = pyStrip f <;> simp [get_current_version, h, eq_comm]

/-- Witness for the get_current_version theorem at concrete versions. -/
theorem get_current_version_spec_witness :
    get_current_version "22.2.11" " 22.2.11" = Except.ok "22.2.11" ∧
    get_current_version "22.2.11" "23.1.1" = Except.error () :=
  ⟨((get_current_version_spec "22.2.11" " 22.2.11").1 "22.2.11").mpr
      ⟨by decide, rfl⟩,
   (get_current_version_spec "22.2.11" "23.1.1").2.mpr (by decide)⟩

/-- Claim C7: create_package removes the package and venv directories,
renders the template with the provided context, builds a fresh virtual
environment with pip, and runs the bootstrap script from inside the package
directory, in that order; it returns the Package rooted at
target/test_package with venv target/package_venv. -/
theorem create_package_spec (resolve : String → String) (cwd target : String)
    (context : List (String × String)) :
    create_package resolve cwd target context =
      ([Effect.rmtree (pathJoin (resolve target) "test_package") true,
        Effect.rmtree (pathJoin (resolve target) "package_venv") true,
        Effect.cookiecutterRender target context true,
        Effect.venvCreate (pathJoin (resolve target) "package_venv")
          true true true,
        Effect.chdir (resolve (pathJoin (resolve target) "test_package")),
        Effect.runCommand "./scripts/bootstrap.sh" []
          (some (pathJoin (resolve target) "package_venv")),
        Effect.chdir (resolve cwd)],
       { package := pathJoin (resolve target) "test_package",
         venv := pathJoin (resolve target) "package_venv" }) := rfl

/-- Claim C9: when the body of run_from completes without raising, the
working directory after exit is the directory current before entry (using
that os.getcwd() yields a canonical path, so resolving it is the
identity), and the rest of the state is exactly what the body left. -/
theorem run_from_restores_cwd {σ : Type} (resolve : String → String)
    (path : String) (body : ProcState σ → Option (ProcState σ))
    (s s2 : ProcState σ)
    (hres : resolve s.cwd = s.cwd)
    (hbody : body { s with cwd := resolve path } = some s2) :
    run_from resolve path body s = some { cwd := s.cwd, rest := s2.rest } := by
  simp [run_from, hbody, hres]

/-- Witness for the run_from theorem at a concrete state and body. -/
theorem run_from_restores_cwd_witness :
    run_from (fun p => p) "/work/pkg" (fun st => some st)
      ({ cwd := "/home", rest := 0 } : ProcState Nat)
      = some { cwd := "/home", rest := 0 } :=
  run_from_restores_cwd _ _ _ _ _ rfl rfl

/-- Claim C4: runCmd hands the shlex-joined command to subprocess.run in
check mode; a zero exit code yields the CompletedProcess with the joined
arguments and the captured output, and a non-zero exit code yields
CalledProcessError carrying the command, the exit code, stdout and stderr,
never a normal return. -/
theorem runCmd_check_spec (runProc : String → Env → ProcResult)
    (resolve : String → String) (environ : Env) (cmd : String)
    (args : List String) (venv : Option String) (out : RunCmdOutcome)
    (h : runCmd runProc resolve environ cmd args venv = some out) :
    out.result
        = subprocessRunCheck runProc (shlexJoin (cmd :: args)) out.childEnv ∧
    ∀ (command : String) (env : Env),
      ((runProc command env).returncode = 0 →
        subprocessRunCheck runProc command env = Except.ok
          { args := command, returncode := (runProc command env).returncode,
            stdout := (runProc command env).stdout,
            stderr := (runProc command env).stderr }) ∧
      ((runProc command env).returncode ≠ 0 →
        subprocessRunCheck runProc command env = Except.error
          { cmd := command, returncode := (runProc command env).returncode,
            output := (runProc command env).stdout,
            stderr := (runProc command env).stderr }) := by
  refine ⟨?_, ?_⟩
  · cases venv with
    | none => simp [runCmd] at h; subst h; rfl
    | some v =>
        cases hp : dictGet environ "PATH" with
        | none => simp [runCmd, hp] at h
        | some path => simp [runCmd, hp] at h; subst h; rfl
  · intro command env
    constructor <;> intro hrc <;> simp [subprocessRunCheck, hrc]

/-- Witness for the runCmd check theorem: a command exiting 1 raises. -/
theorem runCmd_check_witness :
    subprocessRunCheck (fun _ _ => ⟨1, "o", "e"⟩) "false" []
      = Except.error ⟨"false", 1, "o", "e"⟩ := by
  have h := (runCmd_check_spec (fun _ _ => ⟨1, "o", "e"⟩) (fun p => p)
    [] "false" [] none
    ⟨[], [], subprocessRunCheck (fun _ _ => ⟨1, "o", "e"⟩)
      (shlexJoin ["false"]) []⟩ rfl).2 "false" []
  exact h.2 (by decide)

/-- Claim C10: runCmd leaves os.environ unchanged; without a venv the
subprocess environment is the plain copy, and with a venv it is the copy
with the resolved venv bin directory prepended to PATH, every other
variable reading the same as in os.environ. -/
theorem runCmd_environ_frame (runProc : String → Env → ProcResult)
    (resolve : String → String) (environ : Env) (cmd : String)
    (args : List String) (venv : Option String) (out : RunCmdOutcome)
    (h : runCmd runProc resolve environ cmd args venv = some out) :
    out.environAfter = environ ∧
    (venv = none → out.childEnv = environ) ∧
    (∀ v path, venv = some v → dictGet environ "PATH" = some path →
      out.childEnv = dictSet environ "PATH"
        (String.intercalate ":"
          (pathJoin (resolve v) "bin" :: pySplit ':' path)) ∧
      ∀ k, k ≠ "PATH" → dictGet out.childEnv k = dictGet environ k) := by
  cases venv with
  | none =>
      simp [runCmd] at h; subst h
      exact ⟨rfl, fun _ => rfl, fun v path hv => by simp at hv⟩
  | some v =>
      cases hp : dictGet environ "PATH" with
      | none => simp [runCmd, hp] at h
      | some path =>
          simp [runCmd, hp] at h; subst h
          refine ⟨rfl, fun hn => by simp at hn, ?_⟩
          intro v2 path2 hv hp2
          injection hv with hv1
          subst hv1
          injection hp2 with hp3
          subst hp3
          exact ⟨rfl, fun k hk => dictGet_dictSet_ne _ _ _ _ hk⟩

/-- Witness for the runCmd environment frame theorem at a concrete
environment and venv. -/
theorem runCmd_environ_frame_witness :
    ({ environAfter := [("PATH", "/usr/bin"), ("HOME", "/root")],
       childEnv := [("PATH", "/venv/bin:/usr/bin"), ("HOME", "/root")],
       result := Except.ok ⟨"ls", 0, "", ""⟩ } : RunCmdOutcome).environAfter
      = [("PATH", "/usr/bin"), ("HOME", "/root")] :=
  (runCmd_environ_frame (fun _ _ => ⟨0, "", ""⟩) (fun p => p)
    [("PATH", "/usr/bin"), ("HOME", "/root")] "ls" [] (some "/venv") _
    (by rfl)).1

/-- Claim C6: for a setup() call passing name, version, author and
author_email as (necessarily uniquely named) keyword arguments with
constant values, get_meta returns exactly those four keys with those
values and nothing else; for the rendered template module, these are the
slug, version, full name and email of the cookiecutter context. -/
theorem get_meta_spec :
    (∀ (kws : List Keyword) (n v a e : String),
        (kws.map Keyword.arg).Nodup →
        (⟨"name", Expr.const (PyVal.str n)⟩ : Keyword) ∈ kws →
        (⟨"version", Expr.const (PyVal.str v)⟩ : Keyword) ∈ kws →
        (⟨"author", Expr.const (PyVal.str a)⟩ : Keyword) ∈ kws →
        (⟨"author_email", Expr.const (PyVal.str e)⟩ : Keyword) ∈ kws →
        ∃ m, get_meta kws = some m ∧
          dictGet m "name" = some (PyVal.str n) ∧
          dictGet m "version" = some (PyVal.str v) ∧
          dictGet m "author" = some (PyVal.str a) ∧
          dictGet m "author_email" = some (PyVal.str e) ∧
          ∀ k, k ∉ metaNames → dictGet m k = none)
    ∧ (∀ (slug ver fn em : String) (t d : Bool),
        get_meta (setupModulePriv slug ver fn em t d)
          = some [("name", PyVal.str slug), ("version", PyVal.str ver),
                  ("author", PyVal.str fn),
                  ("author_email", PyVal.str em)]) := by
  constructor
  · intro kws n v a e hnd hn hv ha he
    have inj := List.inj_on_of_nodup_map hnd
    have huniq : ∀ (k : String) (val : PyVal),
        (⟨k, Expr.const val⟩ : Keyword) ∈ kws →
        ∀ kw ∈ kws, kw.arg = k → kw = ⟨k, Expr.const val⟩ :=
      fun k val hkv kw hkw hak => inj hkw hkv hak
    have h1 : ∀ kw ∈ kws, kw.arg ∈ metaNames →
        ∃ val, kw.value = Expr.const val := by
      intro kw hkw harg
      simp only [metaNames, List.mem_cons, List.mem_singleton,
        List.not_mem_nil, or_false] at harg
      rcases harg with h | h | h | h
      · exact ⟨PyVal.str n, by rw [huniq _ _ hn kw hkw h]⟩
      · exact ⟨PyVal.str v, by rw [huniq _ _ hv kw hkw h]⟩
      · exact ⟨PyVal.str a, by rw [huniq _ _ ha kw hkw h]⟩
      · exact ⟨PyVal.str e, by rw [huniq _ _ he kw hkw h]⟩
    obtain ⟨m, hm, hnot, -, hmem⟩ := metaFold_char kws [] h1
    refine ⟨m, hm,
      hmem _ _ (by simp [metaNames]) hn (huniq _ _ hn),
      hmem _ _ (by simp [metaNames]) hv (huniq _ _ hv),
      hmem _ _ (by simp [metaNames]) ha (huniq _ _ ha),
      hmem _ _ (by simp [metaNames]) he (huniq _ _ he),
      fun k hk => by rw [hnot k hk]; rfl⟩
  · intro slug ver fn em t d
    cases t <;> cases d <;> rfl

/-- Witness for the get_meta theorem at the test suite's context. -/
theorem get_meta_spec_witness :
    dictGet [("name", PyVal.str "test_package"),
             ("version", PyVal.str "22.2.11"),
             ("author", PyVal.str "John Doe"),
             ("author_email", PyVal.str "johndoe@domain.tld")] "name"
      = some (PyVal.str "test_package") := by
  obtain ⟨m, hm, hname, -⟩ := get_meta_spec.1
    (setupModulePriv "test_package" "22.2.11" "John Doe"
      "johndoe@domain.tld" false false)
    "test_package" "22.2.11" "John Doe" "johndoe@domain.tld"
    (by decide)
    (List.Mem.head _)
    (List.Mem.tail _ (List.Mem.head _))
    (List.Mem.tail _ (List.Mem.tail _ (List.Mem.head _)))
    (List.Mem.tail _ (List.Mem.tail _ (List.Mem.tail _ (List.Mem.head _))))
  have hM : m = [("name", PyVal.str "test_package"),
    ("version", PyVal.str "22.2.11"), ("author", PyVal.str "John Doe"),
    ("author_email", PyVal.str "johndoe@domain.tld")] := by
    have h2 : get_meta (setupModulePriv "test_package" "22.2.11" "John Doe"
        "johndoe@domain.tld" false false)
        = some [("name", PyVal.str "test_package"),
            ("version", PyVal.str "22.2.11"),
            ("author", PyVal.str "John Doe"),
            ("author_email", PyVal.str "johndoe@domain.tld")] := rfl
    rw [hm] at h2
    exact (Option.some.inj h2)
  rw [← hM]
  exact hname

/-- Claim C2: on a setup() call whose install_requires value is a list of
string constants, update_dependency replaces exactly the elements equal to
the old specifier with the new one, keeps every other element, preserves
order and length, and leaves every other keyword argument unmodified. -/
theorem update_dependency_spec
    (pre post : List Keyword) (vals : List String) (old new : String)
    (hpre : ∀ kw ∈ pre, kw.arg ≠ "install_requires")
    (hpost : ∀ kw ∈ post, kw.arg ≠ "install_requires") :
    update_dependency old new (pre ++ ⟨"install_requires",
        Expr.list (vals.map (fun s => Expr.const (PyVal.str s)))⟩ :: post)
      = some (pre ++ ⟨"install_requires",
          Expr.list ((vals.map (fun s => if s = old then new else s)).map
            (fun s => Expr.const (PyVal.str s)))⟩ :: post) ∧
    (vals.map (fun s => if s = old then new else s)).length = vals.length := by
  refine ⟨?_, List.length_map _ _⟩
  have h1 : optionMapList (updaterVisitKeyword old new) pre = some pre :=
    optionMapList_keep _ (fun kw => kw.arg ≠ "install_requires")
      (fun kw h => by simp [updaterVisitKeyword, h]) pre hpre
  have h2 : optionMapList (updaterVisitKeyword old new) post = some post :=
    optionMapList_keep _ (fun kw => kw.arg ≠ "install_requires")
      (fun kw h => by simp [updaterVisitKeyword, h]) post hpost
  have h3 : updaterVisitKeyword old new ⟨"install_requires",
        Expr.list (vals.map (fun s => Expr.const (PyVal.str s)))⟩
      = some ⟨"install_requires",
          Expr.list ((vals.map (fun s => if s = old then new else s)).map
            (fun s => Expr.const (PyVal.str s)))⟩ := by
    simp [updaterVisitKeyword, Expr.elts?, optionMapList_updaterVisitElt]
  rw [update_dependency, optionMapList_append, h1]
  simp [optionMapList, h3, h2]

/-- Claim C1: on a setup() call whose install_requires value is a list of
string constants, add_dependency succeeds, touching only the
install_requires keyword, and get_dependencies on the rewritten module
yields the original install list with the dependency appended and the
extras dictionary extracted before the rewrite. -/
theorem add_dependency_roundtrip
    (pre post : List Keyword) (vals : List String) (d : String) (deps : Deps)
    (hpre : ∀ kw ∈ pre, kw.arg ≠ "install_requires")
    (hpost : ∀ kw ∈ post, kw.arg ≠ "install_requires")
    (hget : get_dependencies (pre ++ ⟨"install_requires",
        Expr.list (vals.map (fun s => Expr.const (PyVal.str s)))⟩ :: post)
      = some deps) :
    add_dependency d (pre ++ ⟨"install_requires",
        Expr.list (vals.map (fun s => Expr.const (PyVal.str s)))⟩ :: post)
      = some (pre ++ ⟨"install_requires",
          Expr.list (vals.map (fun s => Expr.const (PyVal.str s))
            ++ [Expr.const (PyVal.str d)])⟩ :: post) ∧
    get_dependencies (pre ++ ⟨"install_requires",
        Expr.list (vals.map (fun s => Expr.const (PyVal.str s))
          ++ [Expr.const (PyVal.str d)])⟩ :: post)
      = some { install := deps.install ++ [PyVal.str d],
               extras := deps.extras } := by
  constructor
  · have h1 : optionMapList (adderVisitKeyword d) pre = some pre :=
      optionMapList_keep _ (fun kw => kw.arg ≠ "install_requires")
        (fun kw h => by simp [adderVisitKeyword, h]) pre hpre
    have h2 : optionMapList (adderVisitKeyword d) post = some post :=
      optionMapList_keep _ (fun kw => kw.arg ≠ "install_requires")
        (fun kw h => by simp [adderVisitKeyword, h]) post hpost
    have h3 : adderVisitKeyword d ⟨"install_requires",
          Expr.list (vals.map (fun s => Expr.const (PyVal.str s)))⟩
        = some ⟨"install_requires",
            Expr.list (vals.map (fun s => Expr.const (PyVal.str s))
              ++ [Expr.const (PyVal.str d)])⟩ := by
      simp [adderVisitKeyword, Expr.elts?]
    rw [add_dependency, optionMapList_append, h1]
    simp [optionMapList, h3, h2]
  · have hvals : optionMapList Expr.value?
        (vals.map (fun s => Expr.const (PyVal.str s)))
        = some (vals.map PyVal.str) := optionMapList_value_of_str vals
    have hvals2 : optionMapList Expr.value?
        (vals.map (fun s => Expr.const (PyVal.str s))
          ++ [Expr.const (PyVal.str d)])
        = some (vals.map PyVal.str ++ [PyVal.str d]) := by
      rw [optionMapList_append, hvals]; rfl
    rw [get_dependencies] at hget
    rw [get_dependencies]
    simp only [List.foldlM_append, List.foldlM_cons] at hget ⊢
    cases hfp : List.foldlM depsVisitKeyword
        ({ install := [], extras := [] } : Deps) pre with
    | none => rw [hfp] at hget; simp at hget
    | some stp =>
        obtain ⟨ip, ep⟩ := stp
        have hstep : depsVisitKeyword ⟨ip, ep⟩ ⟨"install_requires",
              Expr.list (vals.map (fun s => Expr.const (PyVal.str s)))⟩
            = some ⟨vals.map PyVal.str, ep⟩ := by
          rw [depsVisit_install, hvals]; rfl
        have hstep2 : depsVisitKeyword ⟨ip, ep⟩ ⟨"install_requires",
              Expr.list (vals.map (fun s => Expr.const (PyVal.str s))
                ++ [Expr.const (PyVal.str d)])⟩
            = some ⟨vals.map PyVal.str ++ [PyVal.str d], ep⟩ := by
          rw [depsVisit_install, hvals2]; rfl
        rw [hfp] at hget
        simp [hstep] at hget
        simp [hstep2]
        have hdi : deps.install = vals.map PyVal.str := by
          have hframe0 := depsFold_install_frame post hpost
            (vals.map PyVal.str) (vals.map PyVal.str) ep
          rw [hget] at hframe0
          simp at hframe0
          exact congrArg Deps.install hframe0
        rw [depsFold_install_frame post hpost
          (vals.map PyVal.str ++ [PyVal.str d]) (vals.map PyVal.str) ep, hget]
        simp [hdi]

/-- Witness for the update_dependency theorem on a concrete module. -/
theorem update_dependency_spec_witness :
    update_dependency "trio>=0.19" "trio>=0.21"
        [⟨"name", Expr.const (PyVal.str "p")⟩,
         ⟨"install_requires", Expr.list
           (["attrs>=20.2", "trio>=0.19"].map
             (fun s => Expr.const (PyVal.str s)))⟩]
      = some [⟨"name", Expr.const (PyVal.str "p")⟩,
          ⟨"install_requires", Expr.list
            ((["attrs>=20.2", "trio>=0.19"].map
                (fun s => if s = "trio>=0.19" then "trio>=0.21" else s)).map
              (fun s => Expr.const (PyVal.str s)))⟩]
      ∧ (["attrs>=20.2", "trio>=0.19"].map
          (fun s => if s = "trio>=0.19" then "trio>=0.21" else s)).length
        = (["attrs>=20.2", "trio>=0.19"] : List String).length :=
  update_dependency_spec [⟨"name", Expr.const (PyVal.str "p")⟩] []
    ["attrs>=20.2", "trio>=0.19"] "trio>=0.19" "trio>=0.21"
    (by decide) (by decide)

/-- Witness for the add_dependency round trip on a concrete module. -/
theorem add_dependency_roundtrip_witness :
    add_dependency "pytest>=6.0"
        [⟨"name", Expr.const (PyVal.str "p")⟩,
         ⟨"install_requires", Expr.list
           (["attrs>=20.2"].map (fun s => Expr.const (PyVal.str s)))⟩,
         ⟨"extras_require", Expr.dict [Expr.const (PyVal.str "dev")]
           [Expr.list []]⟩]
      = some [⟨"name", Expr.const (PyVal.str "p")⟩,
          ⟨"install_requires", Expr.list
            (["attrs>=20.2"].map (fun s => Expr.const (PyVal.str s))
              ++ [Expr.const (PyVal.str "pytest>=6.0")])⟩,
          ⟨"extras_require", Expr.dict [Expr.const (PyVal.str "dev")]
            [Expr.list []]⟩]
      ∧ get_dependencies
          [⟨"name", Expr.const (PyVal.str "p")⟩,
           ⟨"install_requires", Expr.list
             (["attrs>=20.2"].map (fun s => Expr.const (PyVal.str s))
               ++ [Expr.const (PyVal.str "pytest>=6.0")])⟩,
           ⟨"extras_require", Expr.dict [Expr.const (PyVal.str "dev")]
             [Expr.list []]⟩]
        = some { install := [PyVal.str "attrs>=20.2"]
                   ++ [PyVal.str "pytest>=6.0"],
                 extras := [(PyVal.str "dev", [])] } :=
  add_dependency_roundtrip
    [⟨"name", Expr.const (PyVal.str "p")⟩]
    [⟨"extras_require", Expr.dict [Expr.const (PyVal.str "dev")]
      [Expr.list []]⟩]
    ["attrs>=20.2"] "pytest>=6.0"
    { install := [PyVal.str "attrs>=20.2"],
      extras := [(PyVal.str "dev", [])] }
    (by decide) (by decide) rfl

end PyBase
